import Mathlib

/-!
Verification development for the Sticky card workspace (src/script.js).

The source file concatenates three variants of the same application:
variant 1 (freeform canvas with a z-index counter and localStorage
persistence), variant 2 (freeform canvas without a z-order counter) and
variant 3 (freeform canvas plus a snapping grid with swap semantics, no
persistence).  The definitions below embed the data-level behaviour of the
functions the claims cite; DOM styling, animations and logging are dropped,
positions are modelled as rationals, and JS NaN (as produced by parseInt on
undefined) is modelled by the none case of Option Int.
-/

namespace Sticky

/-- jsParseInt models JavaScript parseInt applied to the decimal rendering of a
rational pixel value (for example the string "12.7px"): parseInt reads the
maximal integer prefix of the string, which truncates toward zero
(parseInt of "12.7px" is 12, parseInt of "-3.2px" is -3). -/
def jsParseInt (q : ℚ) : Int :=
  if 0 ≤ q then ⌊q⌋ else ⌈q⌉

/-- updateFirst p f l applies f to the first element of l satisfying p.  The JS
code mutates the record returned by Array.prototype.find, hence exactly the
first match is updated. -/
def updateFirst (p : α → Bool) (f : α → α) : List α → List α
  | [] => []
  | x :: xs => if p x then f x :: xs else x :: updateFirst p f xs

/-! ## Variant 1: card store (src/script.js lines 11-643) -/

/-- a card record of variant 1 (an entry of appConfig.cards, src/script.js
lines 13-46): id, title, content, a free position and a z-index.  Coordinates
are rationals because getRandomPosition (lines 123-128) produces fractional
values. -/
structure Card1 where
  id : String
  title : String
  content : String
  posX : ℚ
  posY : ℚ
  zIndex : Int
  deriving DecidableEq

/-- the four seed cards of appConfig (src/script.js lines 13-46). -/
def seedCards : List Card1 :=
  [⟨"card-1", "How to Use?",
    "Click and drag any card to move it around. Cards can be placed freely anywhere on the screen",
    100, 100, 1⟩,
   ⟨"card-2", "What matters now?",
    "Identify your top priority today. Keep it visible, actionable, and small.",
    450, 150, 2⟩,
   ⟨"card-3", "Idea in progress!",
    "What if we approached this differently? — Use this space to explore raw thoughts.",
    200, 300, 3⟩,
   ⟨"card-4", "Looped Thought!",
    "Recurring pattern or belief? Examine it. Is it still serving you?",
    500, 350, 4⟩]

/-- the mutable part of appConfig: the card array and the maxZIndex counter. -/
structure Config1 where
  cards : List Card1
  maxZIndex : Int
  deriving DecidableEq

/-- appConfig as initialised at load time (cards = seedCards, maxZIndex = 4). -/
def initialConfig : Config1 := ⟨seedCards, 4⟩

/-- id allocation in showAddCardDialog (line 331): the string card- followed by
the decimal rendering of Date.now(). -/
def mkCardId (now : Nat) : String := "card-" ++ Nat.repr now

/-- showAddCardDialog (src/script.js lines 321-356), data side: cancelling or
leaving the title or content empty aborts without touching the store; otherwise
a card with id mkCardId now, the random position (x, y) and
zIndex = ++maxZIndex is pushed.  The second component reports the layer
allocated by the counter (none when nothing was allocated). -/
def showAddCardDialog (cfg : Config1) (title content : String) (now : Nat)
    (x y : ℚ) : Config1 × Option Int :=
  if title = "" then (cfg, none)
  else if content = "" then (cfg, none)
  else
    ({ cards := cfg.cards ++ [⟨mkCardId now, title, content, x, y, cfg.maxZIndex + 1⟩],
       maxZIndex := cfg.maxZIndex + 1 },
     some (cfg.maxZIndex + 1))

/-- removeCard (src/script.js lines 293-316), data side: findIndex followed by
splice removes the first card with the given id; a missing id is a no-op. -/
def removeCard (cfg : Config1) (cid : String) : Config1 :=
  { cfg with cards := cfg.cards.eraseP (fun c => c.id == cid) }

/-- bringCardToFront (src/script.js lines 252-266): a missing id is a no-op;
otherwise maxZIndex is incremented and assigned to the found card.  The second
component reports the allocated layer. -/
def bringCardToFront (cfg : Config1) (cid : String) : Config1 × Option Int :=
  match cfg.cards.find? (fun c => c.id == cid) with
  | none => (cfg, none)
  | some _ =>
    ({ cards := updateFirst (fun c => c.id == cid)
         (fun c => { c with zIndex := cfg.maxZIndex + 1 }) cfg.cards,
       maxZIndex := cfg.maxZIndex + 1 },
     some (cfg.maxZIndex + 1))

/-- store operations of variant 1 reachable from the UI.  A create carries the
two prompt results, the Date.now() timestamp and the position produced by
getRandomPosition. -/
inductive Op1 where
  | create (title content : String) (now : Nat) (x y : ℚ)
  | remove (cid : String)
  | bringToFront (cid : String)
  deriving DecidableEq

/-- one operation against the store, returning the layer allocated by the
counter, if any. -/
def stepOp (cfg : Config1) : Op1 → Config1 × Option Int
  | .create t c now x y => showAddCardDialog cfg t c now x y
  | .remove cid => (removeCard cfg cid, none)
  | .bringToFront cid => bringCardToFront cfg cid

/-- runs a sequence of operations against the store. -/
def runOps (cfg : Config1) : List Op1 → Config1
  | [] => cfg
  | op :: ops => runOps (stepOp cfg op).1 ops

/-- the layers allocated by the counter over a run, in allocation order. -/
def runAllocs (cfg : Config1) : List Op1 → List Int
  | [] => []
  | op :: ops => (stepOp cfg op).2.toList ++ runAllocs (stepOp cfg op).1 ops

/-- the ids of the cards surviving in the store. -/
def idsOf (cfg : Config1) : List String := cfg.cards.map Card1.id

/-- the ids a sequence of operations would allocate for its create operations
(executed or not), in order. -/
def createIds : List Op1 → List String
  | [] => []
  | .create _ _ now _ _ :: ops => mkCardId now :: createIds ops
  | .remove _ :: ops => createIds ops
  | .bringToFront _ :: ops => createIds ops

theorem updateFirst_map (p : α → Bool) (f : α → α) (g : α → β)
    (hg : ∀ x, g (f x) = g x) : ∀ l : List α, (updateFirst p f l).map g = l.map g := by
  intro l
  induction l with
  | nil => rfl
  | cons x xs ih =>
    simp only [updateFirst]
    split <;> simp [hg, ih]

theorem idsOf_bringCardToFront (cfg : Config1) (cid : String) :
    idsOf (bringCardToFront cfg cid).1 = idsOf cfg := by
  unfold bringCardToFront
  cases h : cfg.cards.find? (fun c => c.id == cid) with
  | none => rfl
  | some c =>
    simp only [idsOf]
    exact updateFirst_map (fun c => c.id == cid)
      (fun c => { c with zIndex := cfg.maxZIndex + 1 }) Card1.id (fun x => rfl) cfg.cards

theorem idsOf_removeCard_sublist (cfg : Config1) (cid : String) :
    (idsOf (removeCard cfg cid)).Sublist (idsOf cfg) :=
  (List.eraseP_sublist _).map _

theorem nodup_ids_runOps (ops : List Op1) : ∀ cfg : Config1,
    (idsOf cfg).Nodup →
    (createIds ops).Pairwise (· ≠ ·) →
    (∀ s ∈ createIds ops, s ∉ idsOf cfg) →
    (idsOf (runOps cfg ops)).Nodup := by
  induction ops with
  | nil => intro cfg h _ _; exact h
  | cons op ops ih =>
    intro cfg hnd hpw hmem
    simp only [runOps]
    match op with
    | .create t c now x y =>
      simp only [createIds] at hpw hmem
      have hpw2 := hpw.of_cons
      have hhead := (List.pairwise_cons.mp hpw).1
      simp only [stepOp, showAddCardDialog]
      by_cases ht : t = ""
      · simp only [ht, if_pos rfl]
        exact ih cfg hnd hpw2 (fun s hs => hmem s (List.mem_cons_of_mem _ hs))
      · by_cases hc : c = ""
        · simp only [if_neg ht, hc, if_pos rfl]
          exact ih cfg hnd hpw2 (fun s hs => hmem s (List.mem_cons_of_mem _ hs))
        · simp only [if_neg ht, if_neg hc]
          apply ih
          · show (idsOf { cards := cfg.cards ++ [_], maxZIndex := _ }).Nodup
            simp only [idsOf, List.map_append, List.map_cons, List.map_nil]
            rw [List.nodup_append]
            refine ⟨hnd, List.nodup_singleton _, ?_⟩
            intro s hs hs2
            rw [List.mem_singleton] at hs2
            exact hmem _ (List.mem_cons_self _ _) (hs2 ▸ hs)
          · exact hpw2
          · intro s hs
            simp only [idsOf, List.map_append, List.map_cons, List.map_nil,
              List.mem_append, List.mem_singleton]
            rintro (h1 | h2)
            · exact hmem s (List.mem_cons_of_mem _ hs) h1
            · exact hhead _ hs h2.symm
    | .remove cid =>
      simp only [createIds] at hpw hmem
      simp only [stepOp]
      apply ih
      · exact (idsOf_removeCard_sublist cfg cid).nodup hnd
      · exact hpw
      · intro s hs hmem2
        exact hmem s hs ((idsOf_removeCard_sublist cfg cid).subset hmem2)
    | .bringToFront cid =>
      simp only [createIds] at hpw hmem
      simp only [stepOp]
      apply ih
      · rw [idsOf_bringCardToFront]; exact hnd
      · exact hpw
      · intro s hs
        rw [idsOf_bringCardToFront]
        exact hmem s hs

/-- C3 counterexample: starting from the default store, two creates in the same
millisecond (Date.now() = 7 for both) allocate the same id card-7; the store
then holds two cards with equal ids, refuting the claim that create never
allocates an id already present. -/
theorem c3_counterexample :
    ¬ (idsOf (runOps initialConfig
        [Op1.create "a" "b" 7 0 0, Op1.create "c" "d" 7 1 1])).Nodup := by
  decide

theorem createIds_append (l1 l2 : List Op1) :
    createIds (l1 ++ l2) = createIds l1 ++ createIds l2 := by
  induction l1 with
  | nil => rfl
  | cons op ops ih => cases op <;> simp [createIds, ih]

/-- C3 (amended): for every sequence of create, remove and bringToFront
operations in which the ids generated for the creates (card- followed by the
timestamp) are pairwise distinct and avoid the seed ids — in particular
whenever no two creates fall in the same millisecond and no timestamp renders
as 1, 2, 3 or 4 — the ids of the surviving cards are pairwise distinct after
every prefix of the sequence. -/
theorem c3_ids_nodup (ops : List Op1)
    (hpw : (createIds ops).Pairwise (· ≠ ·))
    (hseed : ∀ s ∈ createIds ops, s ∉ idsOf initialConfig) :
    ∀ pre suf : List Op1, ops = pre ++ suf →
      (idsOf (runOps initialConfig pre)).Nodup := by
  intro pre suf hsplit
  subst hsplit
  rw [createIds_append] at hpw hseed
  exact nodup_ids_runOps pre initialConfig (by decide)
    (List.Pairwise.sublist (List.sublist_append_left _ _) hpw)
    (fun s hs => hseed s (List.mem_append_left _ hs))

/-- C3 witness: the amended theorem applied to two creates at distinct
timestamps 7 and 8 from the default store. -/
theorem c3_witness :
    ((createIds [Op1.create "a" "b" 7 0 0, Op1.create "c" "d" 8 1 1]).Pairwise (· ≠ ·)) ∧
    (idsOf (runOps initialConfig [Op1.create "a" "b" 7 0 0, Op1.create "c" "d" 8 1 1])).Nodup :=
  ⟨by decide,
   c3_ids_nodup [Op1.create "a" "b" 7 0 0, Op1.create "c" "d" 8 1 1]
     (by decide) (by decide)
     [Op1.create "a" "b" 7 0 0, Op1.create "c" "d" 8 1 1] [] rfl⟩

theorem stepOp_alloc (cfg : Config1) (op : Op1) :
    ((stepOp cfg op).2 = none ∧ (stepOp cfg op).1.maxZIndex = cfg.maxZIndex) ∨
    ((stepOp cfg op).2 = some (cfg.maxZIndex + 1) ∧
      (stepOp cfg op).1.maxZIndex = cfg.maxZIndex + 1) := by
  match op with
  | .create t c now x y =>
    simp only [stepOp, showAddCardDialog]
    by_cases ht : t = ""
    · simp [ht, removeCard]
    · by_cases hc : c = ""
      · simp [ht, hc]
      · simp [ht, hc]
  | .remove cid => simp [stepOp, removeCard]
  | .bringToFront cid =>
    simp only [stepOp, bringCardToFront]
    cases cfg.cards.find? (fun c => c.id == cid) <;> simp

theorem runAllocs_increasing (ops : List Op1) : ∀ cfg : Config1,
    (∀ a ∈ runAllocs cfg ops, cfg.maxZIndex < a) ∧
    (runAllocs cfg ops).Pairwise (· < ·) := by
  induction ops with
  | nil =>
    intro cfg
    refine ⟨?_, List.Pairwise.nil⟩
    intro a ha
    cases ha
  | cons op ops ih =>
    intro cfg
    simp only [runAllocs]
    rcases stepOp_alloc cfg op with ⟨h2, h1⟩ | ⟨h2, h1⟩
    · rw [h2]
      simp only [Option.toList_none, List.nil_append]
      refine ⟨?_, (ih _).2⟩
      intro a ha
      have := (ih ((stepOp cfg op).1)).1 a ha
      omega
    · rw [h2]
      simp only [Option.toList_some, List.singleton_append]
      have hrest := ih ((stepOp cfg op).1)
      constructor
      · intro a ha
        rcases List.mem_cons.mp ha with rfl | ha2
        · omega
        · have := hrest.1 a ha2
          omega
      · refine List.pairwise_cons.mpr ⟨?_, hrest.2⟩
        intro a ha
        have := hrest.1 a ha
        omega

/-- spec scenario store for C4: a single seed card at free position (100, 100)
with layer 1, counter at 1. -/
def scenarioConfig : Config1 := ⟨[⟨"card-1", "seed", "seed", 100, 100, 1⟩], 1⟩

/-- C4: layers handed out by the counter are strictly increasing over the
lifetime of a store instance (any run of operations, from any store state),
and in the spec scenario a create gives the new card layer 2, after which
bringToFront on the seed card sets the seed layer to 3 while the new card
keeps layer 2. -/
theorem c4_layer_allocation :
    (∀ (cfg : Config1) (ops : List Op1), (runAllocs cfg ops).Pairwise (· < ·)) ∧
    (runOps scenarioConfig [Op1.create "X" "Y" 50 0 0]).cards =
      [⟨"card-1", "seed", "seed", 100, 100, 1⟩, ⟨"card-50", "X", "Y", 0, 0, 2⟩] ∧
    (runOps scenarioConfig [Op1.create "X" "Y" 50 0 0, Op1.bringToFront "card-1"]).cards =
      [⟨"card-1", "seed", "seed", 100, 100, 3⟩, ⟨"card-50", "X", "Y", 0, 0, 2⟩] :=
  ⟨fun cfg ops => (runAllocs_increasing ops cfg).2, by decide, by decide⟩

/-! ## Variant 1: drag controller (src/script.js lines 57-61 and 166-283) -/

/-- the on-screen position of a card element: the style.left and style.top
values the drag handlers read and write. -/
structure DomCard where
  id : String
  styleLeft : ℚ
  styleTop : ℚ
  deriving DecidableEq

/-- a variant-1 world: the store (appConfig), the DOM positions of the card
elements, and the number of saveToStorage calls performed so far (the
persistence writes). -/
structure World1 where
  cfg : Config1
  dom : List DomCard
  saves : Nat
  deriving DecidableEq

/-- dragState of variant 1 (src/script.js lines 57-61); the dragged element is
identified by its id. -/
structure DragState1 where
  isDragging : Bool
  draggedCard : Option String
  offX : ℚ
  offY : ℚ
  deriving DecidableEq

/-- the idle drag state that stopDrag resets to (src/script.js lines 241-245). -/
def idleDrag : DragState1 := ⟨false, none, 0, 0⟩

/-- document.getElementById over the modelled DOM. -/
def lookupDom (w : World1) (cid : String) : Option DomCard :=
  w.dom.find? (fun d => d.id == cid)

/-- Array.prototype.find over the store. -/
def findCard (cfg : Config1) (cid : String) : Option Card1 :=
  cfg.cards.find? (fun c => c.id == cid)

/-- handleDrag (src/script.js lines 204-217): returns immediately unless a drag
is in progress; otherwise only the dragged element's style position is set to
the mouse position minus the press offset.  The store is never touched here. -/
def handleDrag (ds : DragState1) (w : World1) (cx cy : ℚ) : DragState1 × World1 :=
  match ds.isDragging, ds.draggedCard with
  | true, some cid =>
    (ds, { w with dom :=
      (updateFirst (fun d => d.id == cid)
        (fun d => { d with styleLeft := cx - ds.offX, styleTop := cy - ds.offY }) w.dom) })
  | _, _ => (ds, w)

/-- updateCardPosition (src/script.js lines 272-283): copies the element's
style position into the card data, each coordinate read with parseInt; a card
whose data record is gone is left alone. -/
def updateCardPosition (cfg : Config1) (d : DomCard) : Config1 :=
  { cfg with cards :=
    (updateFirst (fun c => c.id == d.id)
      (fun c => { c with posX := (jsParseInt d.styleLeft : ℚ),
                         posY := (jsParseInt d.styleTop : ℚ) }) cfg.cards) }

/-- stopDrag (src/script.js lines 222-246): returns immediately unless a drag
is in progress; otherwise the style position is written into the data
(updateCardPosition), saveToStorage runs once, and the drag state is reset.
The source holds a direct reference to the dragged element; when the modelled
DOM has no entry for the dragged id the position update has no target but the
save and the reset still happen, as in the source. -/
def stopDrag (ds : DragState1) (w : World1) : DragState1 × World1 :=
  match ds.isDragging, ds.draggedCard with
  | true, some cid =>
    match lookupDom w cid with
    | some d => (idleDrag, { w with cfg := updateCardPosition w.cfg d, saves := w.saves + 1 })
    | none => (idleDrag, { w with saves := w.saves + 1 })
  | _, _ => (ds, w)

theorem find?_updateFirst (p : α → Bool) (f : α → α)
    (hp : ∀ x, p (f x) = p x) : ∀ l : List α,
    List.find? p (updateFirst p f l) = (List.find? p l).map f := by
  intro l
  induction l with
  | nil => rfl
  | cons x xs ih =>
    simp only [updateFirst]
    by_cases hx : p x = true
    · rw [if_pos hx, List.find?_cons_of_pos _ (by rw [hp]; exact hx),
        List.find?_cons_of_pos _ hx]
      rfl
    · rw [if_neg hx, List.find?_cons_of_neg _ hx, List.find?_cons_of_neg _ hx, ih]

/-- C9: a move or a release event arriving while no drag is in progress is a
complete no-op: the drag state, the store, the DOM and the save count are all
returned exactly as they were. -/
theorem c9_idle_noop (ds : DragState1) (w : World1) (cx cy : ℚ)
    (h : ds.isDragging = false) :
    handleDrag ds w cx cy = (ds, w) ∧ stopDrag ds w = (ds, w) := by
  obtain ⟨b, oc, ox, oy⟩ := ds
  have hb : b = false := h
  subst hb
  cases oc <;> exact ⟨rfl, rfl⟩

/-- C9 witness: the idle no-op at a concrete world. -/
theorem c9_idle_noop_witness :
    (idleDrag.isDragging = false) ∧
    handleDrag idleDrag ⟨initialConfig, [⟨"card-1", 100, 100⟩], 0⟩ 7 9 =
      (idleDrag, ⟨initialConfig, [⟨"card-1", 100, 100⟩], 0⟩) ∧
    stopDrag idleDrag ⟨initialConfig, [⟨"card-1", 100, 100⟩], 0⟩ =
      (idleDrag, ⟨initialConfig, [⟨"card-1", 100, 100⟩], 0⟩) :=
  ⟨rfl,
   (c9_idle_noop idleDrag ⟨initialConfig, [⟨"card-1", 100, 100⟩], 0⟩ 7 9 rfl).1,
   (c9_idle_noop idleDrag ⟨initialConfig, [⟨"card-1", 100, 100⟩], 0⟩ 7 9 rfl).2⟩

/-- C5 counterexample: releasing a drag whose card was drawn at style position
(-50, 30) stores x = -50 verbatim; the stored x is negative, hence not clamped
into the interval from 0 to viewportWidth minus the card width. -/
theorem c5_counterexample :
    ((stopDrag ⟨true, some "card-1", 0, 0⟩
        ⟨⟨[⟨"card-1", "t", "c", 100, 100, 1⟩], 1⟩, [⟨"card-1", -50, 30⟩], 0⟩).2.cfg.cards =
      [⟨"card-1", "t", "c", -50, 30, 1⟩]) ∧ ¬ (0 ≤ (-50 : ℚ)) := by
  constructor
  · decide
  · norm_num

/-- C5 (amended): on a release with a drag in progress, the stored placement
is the dragged element's final style position truncated by parseInt and
written verbatim — no clamping into viewport bounds takes place, so the
resting coordinates can be negative or beyond the viewport; one persistence
write occurs and the drag session is cleared. -/
theorem c5_release_stores_unclamped (ds : DragState1) (w : World1)
    (cid : String) (d : DomCard)
    (hdrag : ds.isDragging = true) (hcard : ds.draggedCard = some cid)
    (hdom : lookupDom w cid = some d) :
    findCard (stopDrag ds w).2.cfg cid =
      (findCard w.cfg cid).map
        (fun c => { c with posX := (jsParseInt d.styleLeft : ℚ),
                           posY := (jsParseInt d.styleTop : ℚ) }) ∧
    (stopDrag ds w).2.saves = w.saves + 1 ∧
    (stopDrag ds w).1 = idleDrag := by
  obtain ⟨b, oc, ox, oy⟩ := ds
  have hb : b = true := hdrag
  have hoc : oc = some cid := hcard
  subst hb
  subst hoc
  have hid : d.id = cid := by
    have h2 := List.find?_some (show w.dom.find? (fun x => x.id == cid) = some d from hdom)
    simpa using h2
  subst hid
  simp only [stopDrag, lookupDom] at hdom ⊢
  rw [hdom]
  refine ⟨?_, rfl, rfl⟩
  simp only [findCard, updateCardPosition]
  exact find?_updateFirst (fun c => c.id == d.id)
    (fun c => { c with posX := (jsParseInt d.styleLeft : ℚ),
                       posY := (jsParseInt d.styleTop : ℚ) })
    (fun c => rfl) w.cfg.cards

/-- C5 witness: the amended release behaviour at a concrete world whose card
sits at style position (-50, 30). -/
theorem c5_release_witness :
    (lookupDom ⟨⟨[⟨"card-1", "t", "c", 100, 100, 1⟩], 1⟩, [⟨"card-1", -50, 30⟩], 0⟩ "card-1" =
      some ⟨"card-1", -50, 30⟩) ∧
    (findCard (stopDrag ⟨true, some "card-1", 0, 0⟩
        ⟨⟨[⟨"card-1", "t", "c", 100, 100, 1⟩], 1⟩, [⟨"card-1", -50, 30⟩], 0⟩).2.cfg "card-1" =
      (findCard (⟨[⟨"card-1", "t", "c", 100, 100, 1⟩], 1⟩ : Config1) "card-1").map
        (fun c => { c with posX := (jsParseInt (-50) : ℚ), posY := (jsParseInt 30 : ℚ) }) ∧
    (stopDrag ⟨true, some "card-1", 0, 0⟩
        ⟨⟨[⟨"card-1", "t", "c", 100, 100, 1⟩], 1⟩, [⟨"card-1", -50, 30⟩], 0⟩).2.saves = 0 + 1 ∧
    (stopDrag ⟨true, some "card-1", 0, 0⟩
        ⟨⟨[⟨"card-1", "t", "c", 100, 100, 1⟩], 1⟩, [⟨"card-1", -50, 30⟩], 0⟩).1 = idleDrag) :=
  ⟨rfl, c5_release_stores_unclamped ⟨true, some "card-1", 0, 0⟩
    ⟨⟨[⟨"card-1", "t", "c", 100, 100, 1⟩], 1⟩, [⟨"card-1", -50, 30⟩], 0⟩
    "card-1" ⟨"card-1", -50, 30⟩ rfl rfl rfl⟩

theorem jsParseInt_spec (q : ℚ) :
    |jsParseInt q| = ⌊|q|⌋ ∧ (0 ≤ q → 0 ≤ jsParseInt q) ∧ (q ≤ 0 → jsParseInt q ≤ 0) := by
  unfold jsParseInt
  by_cases h : 0 ≤ q
  · rw [if_pos h]
    have h0 : (0 : Int) ≤ ⌊q⌋ := Int.floor_nonneg.mpr h
    refine ⟨?_, fun _ => h0, ?_⟩
    · rw [abs_of_nonneg h, abs_of_nonneg h0]
    · intro hq0
      have hq : q = 0 := le_antisymm hq0 h
      simp [hq]
  · rw [if_neg h]
    push_neg at h
    have hc : ⌈q⌉ ≤ 0 := Int.ceil_le.mpr (by exact_mod_cast h.le)
    refine ⟨?_, fun hq => absurd hq (not_le.mpr h), fun _ => hc⟩
    rw [abs_of_neg h, abs_of_nonpos hc, Int.floor_neg]

/-- C10: the free position stored on a drag release is the integer truncation
toward zero of the card's (possibly fractional) style coordinates: the stored
coordinates are integer-valued rationals whose magnitude is the floor of the
style magnitude and whose sign follows the style value. -/
theorem c10_release_truncates (ds : DragState1) (w : World1)
    (cid : String) (d : DomCard) (c : Card1)
    (hdrag : ds.isDragging = true) (hcard : ds.draggedCard = some cid)
    (hdom : lookupDom w cid = some d) (hdata : findCard w.cfg cid = some c) :
    ∃ n m : Int,
      findCard (stopDrag ds w).2.cfg cid =
        some { c with posX := (n : ℚ), posY := (m : ℚ) } ∧
      |n| = ⌊|d.styleLeft|⌋ ∧ (0 ≤ d.styleLeft → 0 ≤ n) ∧ (d.styleLeft ≤ 0 → n ≤ 0) ∧
      |m| = ⌊|d.styleTop|⌋ ∧ (0 ≤ d.styleTop → 0 ≤ m) ∧ (d.styleTop ≤ 0 → m ≤ 0) := by
  obtain ⟨b, oc, ox, oy⟩ := ds
  have hb : b = true := hdrag
  have hoc : oc = some cid := hcard
  subst hb
  subst hoc
  have hid : d.id = cid := by
    have h2 := List.find?_some (show w.dom.find? (fun x => x.id == cid) = some d from hdom)
    simpa using h2
  subst hid
  refine ⟨jsParseInt d.styleLeft, jsParseInt d.styleTop, ?_,
    (jsParseInt_spec d.styleLeft).1, (jsParseInt_spec d.styleLeft).2.1,
    (jsParseInt_spec d.styleLeft).2.2, (jsParseInt_spec d.styleTop).1,
    (jsParseInt_spec d.styleTop).2.1, (jsParseInt_spec d.styleTop).2.2⟩
  simp only [stopDrag, lookupDom] at hdom ⊢
  rw [hdom]
  simp only [findCard, updateCardPosition] at hdata ⊢
  rw [find?_updateFirst (fun c => c.id == d.id)
    (fun c => { c with posX := (jsParseInt d.styleLeft : ℚ),
                       posY := (jsParseInt d.styleTop : ℚ) })
    (fun c => rfl) w.cfg.cards, hdata]
  rfl

/-- C10 witness: releasing a card drawn at the fractional style position
(12.7, -3.2), encoded as mkRat 127 10 and mkRat (-16) 5, stores an integer
pair obtained by truncation toward zero. -/
theorem c10_release_witness :
    (lookupDom ⟨⟨[⟨"card-1", "t", "c", 100, 100, 1⟩], 1⟩,
        [⟨"card-1", mkRat 127 10, mkRat (-16) 5⟩], 0⟩ "card-1" =
      some ⟨"card-1", mkRat 127 10, mkRat (-16) 5⟩) ∧
    (findCard (⟨[⟨"card-1", "t", "c", 100, 100, 1⟩], 1⟩ : Config1) "card-1" =
      some ⟨"card-1", "t", "c", 100, 100, 1⟩) ∧
    (∃ n m : Int,
      findCard (stopDrag ⟨true, some "card-1", 0, 0⟩
        ⟨⟨[⟨"card-1", "t", "c", 100, 100, 1⟩], 1⟩,
         [⟨"card-1", mkRat 127 10, mkRat (-16) 5⟩], 0⟩).2.cfg "card-1" =
        some { (⟨"card-1", "t", "c", 100, 100, 1⟩ : Card1) with
                 posX := (n : ℚ), posY := (m : ℚ) } ∧
      |n| = ⌊|mkRat 127 10|⌋ ∧ (0 ≤ mkRat 127 10 → 0 ≤ n) ∧ (mkRat 127 10 ≤ 0 → n ≤ 0) ∧
      |m| = ⌊|mkRat (-16) 5|⌋ ∧ (0 ≤ mkRat (-16) 5 → 0 ≤ m) ∧ (mkRat (-16) 5 ≤ 0 → m ≤ 0)) :=
  ⟨rfl, rfl,
   c10_release_truncates ⟨true, some "card-1", 0, 0⟩
     ⟨⟨[⟨"card-1", "t", "c", 100, 100, 1⟩], 1⟩,
      [⟨"card-1", mkRat 127 10, mkRat (-16) 5⟩], 0⟩
     "card-1" ⟨"card-1", mkRat 127 10, mkRat (-16) 5⟩ ⟨"card-1", "t", "c", 100, 100, 1⟩
     rfl rfl rfl rfl⟩

/-! ## Variant 1: persistence (src/script.js lines 365-403) -/

/-- a parsed JSON value: the possible results of JSON.parse. -/
inductive JVal where
  | null
  | bool (b : Bool)
  | num (q : ℚ)
  | str (s : String)
  | arr (xs : List JVal)
  | obj (fields : List (String × JVal))

/-- member access on a parsed object; JSON.parse yields objects with distinct
keys, so first-match lookup is exact. -/
def lookupField : List (String × JVal) → String → Option JVal
  | [], _ => none
  | (k2, v) :: rest, k => if k2 = k then some v else lookupField rest k

/-- JavaScript truthiness of a parsed JSON value (NaN cannot occur in parsed
JSON, so a number is falsy exactly when it is 0; the empty string is falsy;
every array and object is truthy). -/
def truthy : JVal → Bool
  | .null => false
  | .bool b => b
  | .num q => if q = 0 then false else true
  | .str s => if s = "" then false else true
  | .arr _ => true
  | .obj _ => true

/-- the two appConfig fields that loadFromStorage assigns.  Loaded cards are
adopted verbatim without validation, so the card list is kept as raw parsed
values; the counter is likewise adopted raw (any truthy value survives the
|| 4 default). -/
structure RawStore where
  cards : List JVal
  maxZIndex : JVal

/-- a variant-1 card rendered as the JSON object saveToStorage writes for it. -/
def cardToJson (c : Card1) : JVal :=
  .obj [("id", .str c.id), ("title", .str c.title), ("content", .str c.content),
        ("position", .obj [("x", .num c.posX), ("y", .num c.posY)]),
        ("zIndex", .num (c.zIndex : ℚ))]

/-- appConfig defaults in raw form: the four seed cards and counter 4. -/
def defaultRawStore : RawStore := ⟨seedCards.map cardToJson, .num 4⟩

/-- the JavaScript expression workspaceData.maxZIndex || 4: the field value
when present and truthy, the number 4 otherwise. -/
def jsOrFour (v : Option JVal) : JVal :=
  match v with
  | some w => if truthy w then w else .num 4
  | none => .num 4

/-- loadFromStorage (src/script.js lines 382-403).  The input models
localStorage.getItem composed with JSON.parse: none when no blob is stored (or
the stored string is empty, which the guard drops), some none when JSON.parse
throws (the catch block leaves the store untouched), some (some v) when the
blob parses to v.  Only an object holding an array under the key "cards" is
adopted, and then both fields are assigned; member access on any non-object
yields undefined (or throws on null, again caught), so every other shape
leaves the store exactly as it was. -/
def loadFromStorage (saved : Option (Option JVal)) (store : RawStore) : RawStore :=
  match saved with
  | some (some (.obj fs)) =>
    match lookupField fs "cards" with
    | some (.arr xs) => { cards := xs, maxZIndex := jsOrFour (lookupField fs "maxZIndex") }
    | _ => store
  | _ => store

/-- C7: a persisted blob is adopted only when it parses to an object carrying
an array under the key "cards"; for every other input — nothing stored,
unparseable text, a non-object value, or an object without such an array — the
store (in particular the default store with the four seed cards) is returned
entirely unchanged, with no field of the blob partially adopted. -/
theorem c7_load_validates (saved : Option (Option JVal)) (store : RawStore)
    (h : ∀ fs xs, ¬ (saved = some (some (.obj fs)) ∧
      lookupField fs "cards" = some (.arr xs))) :
    loadFromStorage saved store = store := by
  match saved with
  | none => rfl
  | some none => rfl
  | some (some (.null)) => rfl
  | some (some (.bool b)) => rfl
  | some (some (.num q)) => rfl
  | some (some (.str s)) => rfl
  | some (some (.arr xs)) => rfl
  | some (some (.obj fs)) =>
    simp only [loadFromStorage]
    match hx : lookupField fs "cards" with
    | none => rfl
    | some (.null) => rfl
    | some (.bool b) => rfl
    | some (.num q) => rfl
    | some (.str s) => rfl
    | some (.obj fs2) => rfl
    | some (.arr xs) => exact absurd ⟨rfl, hx⟩ (h fs xs)

/-- C7 witness: an object blob without the cards key leaves the default store
with its four seed cards untouched. -/
theorem c7_load_witness :
    loadFromStorage (some (some (.obj [("foo", JVal.num 1)]))) defaultRawStore =
      defaultRawStore :=
  c7_load_validates (some (some (.obj [("foo", JVal.num 1)]))) defaultRawStore
    (by
      rintro fs xs ⟨h1, h2⟩
      simp only [Option.some.injEq, JVal.obj.injEq] at h1
      subst h1
      have hl : lookupField [("foo", JVal.num 1)] "cards" = none := rfl
      rw [hl] at h2
      exact Option.noConfusion h2)

/-- decodeCard reads a loaded card object's fields exactly as the running code
uses them after adoption (duck typing): an id, title and content string, a
position object with numeric x and y, and an integer numeric zIndex. -/
def decodeCard : JVal → Option Card1
  | .obj fs =>
    match lookupField fs "id", lookupField fs "title", lookupField fs "content",
          lookupField fs "position", lookupField fs "zIndex" with
    | some (.str i), some (.str t), some (.str ct), some (.obj ps), some (.num z) =>
      (match lookupField ps "x", lookupField ps "y" with
       | some (.num x), some (.num y) =>
         if z.den = 1 then some ⟨i, t, ct, x, y, z.num⟩ else none
       | _, _ => none)
    | _, _, _, _, _ => none
  | _ => none

/-- the loaded card array as the typed store the subsequent operations see. -/
def decodeCards (xs : List JVal) : Option (List Card1) := xs.mapM decodeCard

theorem exists_mem_updateFirst {P : α → Prop} (p : α → Bool) (f : α → α)
    (hf : ∀ x, P (f x)) : ∀ l : List α, (∃ c ∈ l, P c) → ∃ c ∈ updateFirst p f l, P c := by
  intro l
  induction l with
  | nil =>
    rintro ⟨c, hc, _⟩
    cases hc
  | cons x xs ih =>
    rintro ⟨c, hc, hPc⟩
    simp only [updateFirst]
    by_cases hp : p x = true
    · rw [if_pos hp]
      rcases List.mem_cons.mp hc with rfl | hc2
      · exact ⟨f c, List.mem_cons_self _ _, hf c⟩
      · exact ⟨c, List.mem_cons_of_mem _ hc2, hPc⟩
    · rw [if_neg hp]
      rcases List.mem_cons.mp hc with rfl | hc2
      · exact ⟨c, List.mem_cons_self _ _, hPc⟩
      · obtain ⟨c2, hc2b, hP2⟩ := ih ⟨c, hc2, hPc⟩
        exact ⟨c2, List.mem_cons_of_mem _ hc2b, hP2⟩

/-- C8: when a loaded blob carries a valid card array but its maxZIndex field
is absent or zero, the counter is set to the constant 4 whatever layers the
loaded cards carry; and when some loaded card has a layer greater than 4, the
next bringToFront hands out layer 5 = 4 + 1, which some surviving card's layer
still matches or exceeds — the allocated layer fails to exceed every existing
card's layer. -/
theorem c8_loaded_counter (fs : List (String × JVal)) (xs : List JVal)
    (cards : List Card1) (cid : String)
    (hc : lookupField fs "cards" = some (.arr xs))
    (hz : lookupField fs "maxZIndex" = none ∨ lookupField fs "maxZIndex" = some (.num 0))
    (hdec : decodeCards xs = some cards)
    (hbig : ∃ c ∈ cards, 4 < c.zIndex)
    (hmem : ∃ c ∈ cards, c.id = cid) :
    (∀ store : RawStore,
      (loadFromStorage (some (some (.obj fs))) store).maxZIndex = .num 4) ∧
    (bringCardToFront ⟨cards, 4⟩ cid).2 = some 5 ∧
    (∃ c ∈ (bringCardToFront ⟨cards, 4⟩ cid).1.cards, 5 ≤ c.zIndex) := by
  refine ⟨?_, ?_⟩
  · intro store
    simp only [loadFromStorage]
    rw [hc]
    rcases hz with hz | hz <;> rw [hz] <;> rfl
  · have hfind : cards.find? (fun c => c.id == cid) ≠ none := by
      intro hnone
      rw [List.find?_eq_none] at hnone
      obtain ⟨c, hcmem, hcid⟩ := hmem
      exact hnone c hcmem (by simp [hcid])
    cases hf : cards.find? (fun c => c.id == cid) with
    | none => exact absurd hf hfind
    | some c0 =>
      simp only [bringCardToFront, hf]
      refine ⟨rfl, ?_⟩
      refine exists_mem_updateFirst (P := fun c => 5 ≤ c.zIndex) (fun c => c.id == cid)
        (fun c => { c with zIndex := (4 : Int) + 1 }) (fun x => by norm_num) cards ?_
      obtain ⟨c, hcmem, hcz⟩ := hbig
      exact ⟨c, hcmem, by omega⟩

/-- C8 witness: a blob whose single card carries layer 10 and whose maxZIndex
key is missing loads with counter 4; bringToFront then allocates layer 5,
which does not put the card on top of a layer-10 card. -/
theorem c8_loaded_counter_witness :
    (decodeCards [cardToJson ⟨"c1", "t", "b", 0, 0, 10⟩] =
      some [⟨"c1", "t", "b", 0, 0, 10⟩]) ∧
    (∀ store : RawStore,
      (loadFromStorage (some (some (.obj
        [("cards", .arr [cardToJson ⟨"c1", "t", "b", 0, 0, 10⟩])]))) store).maxZIndex =
        .num 4) ∧
    (bringCardToFront ⟨[⟨"c1", "t", "b", 0, 0, 10⟩], 4⟩ "c1").2 = some 5 ∧
    (∃ c ∈ (bringCardToFront ⟨[⟨"c1", "t", "b", 0, 0, 10⟩], 4⟩ "c1").1.cards,
      5 ≤ c.zIndex) := by
  refine ⟨rfl, ?_⟩
  exact c8_loaded_counter [("cards", .arr [cardToJson ⟨"c1", "t", "b", 0, 0, 10⟩])]
    [cardToJson ⟨"c1", "t", "b", 0, 0, 10⟩] [⟨"c1", "t", "b", 0, 0, 10⟩] "c1"
    rfl (Or.inl rfl) rfl
    ⟨⟨"c1", "t", "b", 0, 0, 10⟩, List.mem_cons_self _ _, by norm_num⟩
    ⟨⟨"c1", "t", "b", 0, 0, 10⟩, List.mem_cons_self _ _, rfl⟩

/-! ## Variant 3: grid workspace (src/script.js lines 1560-2337) -/

/-- a JavaScript number that may be NaN: parseInt of an undefined dataset
entry is NaN, modelled as none. -/
abbrev JNum := Option Int

/-- the data record of a variant-3 card (an entry of CONFIG.cardData):
updateCardDataPosition keeps exactly one of the grid position and the free
position, nulling the other. -/
structure Card3 where
  id : String
  position : Option (JNum × JNum)
  freePosition : Option (ℚ × ℚ)
  deriving DecidableEq

/-- where a card element currently hangs in the DOM: the document body (free
cards, and every card while it is being dragged, since startDragging calls
convertCardToFreePosition which appends the element to the body) or a grid
cell carrying dataset row and col. -/
inductive Parent where
  | body
  | cell (r c : Nat)
  deriving DecidableEq

/-- a card element: its id, its parent node, and whether it carries the
dragging class. -/
structure Dom3 where
  id : String
  parent : Parent
  dragging : Bool
  deriving DecidableEq

/-- a variant-3 world: CONFIG.cardData plus the DOM tree. -/
structure World3 where
  data : List Card3
  dom : List Dom3
  deriving DecidableEq

/-- dataset.row of a node: grid cells carry their row; document.body has no
such dataset entry, so the access yields undefined. -/
def datasetRow : Parent → Option Nat
  | .body => none
  | .cell r _ => some r

/-- dataset.col of a node, as datasetRow. -/
def datasetCol : Parent → Option Nat
  | .body => none
  | .cell _ c => some c

/-- parseInt of a dataset entry: the number for a cell's entry, NaN (none)
for the undefined entry of document.body. -/
def parseIntOpt : Option Nat → JNum
  | none => none
  | some n => some (n : Int)

/-- updateCardDataPosition (src/script.js lines 2040-2055): a truthy (present)
gridPosition replaces position and nulls freePosition; otherwise freePosition
is replaced and position is nulled. -/
def updateCardDataPosition (data : List Card3) (cid : String)
    (gridPosition : Option (JNum × JNum)) (freePosition : Option (ℚ × ℚ)) :
    List Card3 :=
  updateFirst (fun c => c.id == cid)
    (fun c => match gridPosition with
      | some gp => { c with position := some gp, freePosition := none }
      | none => { c with position := none, freePosition := freePosition }) data

/-- moveCardToGridCell (src/script.js lines 1975-1998): re-parents the card
element to the target node and stores parseInt of the target's dataset row
and col as the grid position — for document.body both reads give NaN.  The
grid-position object passed on is always truthy, so the data update always
takes the grid branch. -/
def moveCardToGridCell (w : World3) (cid : String) (target : Parent) : World3 :=
  { data := updateCardDataPosition w.data cid
      (some (parseIntOpt (datasetRow target), parseIntOpt (datasetCol target))) none,
    dom := updateFirst (fun d => d.id == cid)
      (fun d => { d with parent := target }) w.dom }

/-- parentElement of a card element. -/
def parentOf (w : World3) (cid : String) : Option Parent :=
  (w.dom.find? (fun d => d.id == cid)).map Dom3.parent

/-- swapCardPositions (src/script.js lines 2004-2014): reads both parents
first, then moves each card to the other card's parent. -/
def swapCardPositions (w : World3) (cid1 cid2 : String) : World3 :=
  let p1 := (parentOf w cid1).getD .body
  let p2 := (parentOf w cid2).getD .body
  moveCardToGridCell (moveCardToGridCell w cid1 p2) cid2 p1

/-- the querySelector call of snapCardToGrid: the first card inside cell
(row, col) not carrying the dragging class. -/
def occupant (w : World3) (row col : Nat) : Option String :=
  (w.dom.find? (fun d => d.parent == .cell row col && !d.dragging)).map Dom3.id

/-- snapCardToGrid (src/script.js lines 1956-1969): swap when the target cell
holds another (non-dragging) card, plain move into the cell otherwise. -/
def snapCardToGrid (w : World3) (cid : String) (row col : Nat) : World3 :=
  match occupant w row col with
  | some other => swapCardPositions w cid other
  | none => moveCardToGridCell w cid (.cell row col)

/-- C1: evaluating the spec scenario — card A with origin Free (10, 10),
hanging off document.body mid-drag, dropped on cell (0, 1) occupied by card B.
A does take Grid (0, 1), but B is moved to A's current parent, which is
document.body (never A's origin), and B's stored placement becomes a grid
position of (NaN, NaN) with freePosition null: B is not evicted to any
freshly computed free position. -/
theorem c1_swap_moves_occupant_to_body :
    snapCardToGrid
      ⟨[⟨"A", none, some (10, 10)⟩, ⟨"B", some (some 0, some 1), none⟩],
       [⟨"A", .body, true⟩, ⟨"B", .cell 0 1, false⟩]⟩ "A" 0 1 =
    ⟨[⟨"A", some (some 0, some 1), none⟩, ⟨"B", some (none, none), none⟩],
     [⟨"A", .cell 0 1, true⟩, ⟨"B", .body, false⟩]⟩ := by
  decide

theorem updateFirst_eq_self (p : α → Bool) (f : α → α) :
    ∀ l : List α, (∀ x ∈ l, p x = true → f x = x) → updateFirst p f l = l := by
  intro l
  induction l with
  | nil => intro _; rfl
  | cons x xs ih =>
    intro h
    simp only [updateFirst]
    by_cases hp : p x = true
    · rw [if_pos hp, h x (List.mem_cons_self _ _) hp]
    · rw [if_neg hp, ih (fun y hy => h y (List.mem_cons_of_mem _ hy))]

/-- C2: dropping a card back onto its own originating cell is a data no-op:
when the dragged card's stored placement is Grid (r, c) and cell (r, c) holds
no other card, the snap takes the empty-cell branch — no self-swap, since the
dragged element hangs off document.body and carries the dragging class — and
rewrites the identical placement, so every card record (the whole persisted
snapshot) is unchanged and the element's parent is restored to cell (r, c). -/
theorem c2_self_drop_noop (w : World3) (cid : String) (r c : Nat)
    (hocc : occupant w r c = none)
    (hdata : ∀ cd ∈ w.data, cd.id = cid →
      cd.position = some (some (r : Int), some (c : Int)) ∧ cd.freePosition = none) :
    (snapCardToGrid w cid r c).data = w.data ∧
    (snapCardToGrid w cid r c).dom =
      updateFirst (fun d => d.id == cid)
        (fun d => { d with parent := .cell r c }) w.dom := by
  simp only [snapCardToGrid]
  rw [hocc]
  refine ⟨?_, rfl⟩
  simp only [moveCardToGridCell, updateCardDataPosition, datasetRow, datasetCol, parseIntOpt]
  apply updateFirst_eq_self
  intro x hx hpx
  have hxid : x.id = cid := by simpa using hpx
  obtain ⟨h1, h2⟩ := hdata x hx hxid
  obtain ⟨xid, xpos, xfr⟩ := x
  simp only at h1 h2
  rw [h1, h2]

/-- C2 witness: a single card with origin Grid (0, 1), mid-drag on the body,
dropped back on cell (0, 1). -/
theorem c2_self_drop_noop_witness :
    (occupant ⟨[⟨"X", some (some 0, some 1), none⟩], [⟨"X", .body, true⟩]⟩ 0 1 = none) ∧
    (snapCardToGrid ⟨[⟨"X", some (some 0, some 1), none⟩], [⟨"X", .body, true⟩]⟩ "X" 0 1).data =
      [⟨"X", some (some 0, some 1), none⟩] ∧
    (snapCardToGrid ⟨[⟨"X", some (some 0, some 1), none⟩], [⟨"X", .body, true⟩]⟩ "X" 0 1).dom =
      updateFirst (fun d => d.id == "X") (fun d => { d with parent := .cell 0 1 })
        [⟨"X", .body, true⟩] :=
  ⟨rfl,
   (c2_self_drop_noop ⟨[⟨"X", some (some 0, some 1), none⟩], [⟨"X", .body, true⟩]⟩
     "X" 0 1 rfl (by decide)).1,
   (c2_self_drop_noop ⟨[⟨"X", some (some 0, some 1), none⟩], [⟨"X", .body, true⟩]⟩
     "X" 0 1 rfl (by decide)).2⟩

/-- the per-card body of the variant-3 resize loop (src/script.js lines
2214-2233): a card with a truthy freePosition has each coordinate capped with
Math.min at the window size minus the card dimension (width 300, height 200);
any other card is untouched. -/
def clampResize3 (winW winH : ℚ) (cd : Card3) : Card3 :=
  match cd.freePosition with
  | some (x, y) =>
    { cd with freePosition := some (min x (winW - 300), min y (winH - 200)) }
  | none => cd

/-- handleWindowResize of variant 3 (src/script.js lines 2210-2234): the full
pass over CONFIG.cardData.  This variant does not persist. -/
def handleWindowResize3 (winW winH : ℚ) (data : List Card3) : List Card3 :=
  data.map (clampResize3 winW winH)

/-- handleWindowResize of variant 1 (src/script.js lines 582-606): every card
position is capped at the window size minus the card dimensions (width 300,
max height 400) when it exceeds them, the element styles are rewritten from
the adjusted data, and saveToStorage runs once at the end. -/
def handleWindowResize1 (winW winH : ℚ) (w : World1) : World1 :=
  let newCards := w.cfg.cards.map (fun c =>
    { c with posX := if c.posX > winW - 300 then winW - 300 else c.posX,
             posY := if c.posY > winH - 400 then winH - 400 else c.posY })
  { cfg := { w.cfg with cards := newCards },
    dom := w.dom.map (fun d =>
      match newCards.find? (fun c => c.id == d.id) with
      | some c => { d with styleLeft := c.posX, styleTop := c.posY }
      | none => d),
    saves := w.saves + 1 }

/-- C6 counterexample: a free card resting at x = -50 is left at x = -50 by
the resize pass (the code caps only from above), so after a resize its stored
coordinate is not in the claimed interval from 0 to the new dimension minus
the card dimension. -/
theorem c6_counterexample :
    (handleWindowResize3 800 600 [⟨"A", none, some (-50, 30)⟩] =
      [⟨"A", none, some (-50, 30)⟩]) ∧ ¬ (0 ≤ (-50 : ℚ)) := by
  constructor
  · simp only [handleWindowResize3, List.map_cons, List.map_nil, clampResize3]
    rw [min_eq_left (by norm_num), min_eq_left (by norm_num)]
  · norm_num

theorem clampResize3_spec (winW winH : ℚ) (cd : Card3) :
    (cd.freePosition = none → clampResize3 winW winH cd = cd) ∧
    (∀ x y, cd.freePosition = some (x, y) →
      clampResize3 winW winH cd =
        { cd with freePosition := some (min x (winW - 300), min y (winH - 200)) } ∧
      min x (winW - 300) ≤ winW - 300 ∧ min y (winH - 200) ≤ winH - 200) := by
  constructor
  · intro h
    unfold clampResize3
    rw [h]
  · intro x y h
    unfold clampResize3
    rw [h]
    exact ⟨rfl, min_le_right _ _, min_le_right _ _⟩

/-- C6 (amended): the resize pass visits every card; grid-positioned cards
(those without a freePosition) come out unchanged, every free card's
coordinates are capped from above at the new dimension minus the card
dimension — but never raised to 0, so negative coordinates survive, contrary
to the claimed two-sided clamp — and the persisting variant performs exactly
one immediate store write whose cards all satisfy the upper bounds. -/
theorem c6_resize_caps_above (winW winH : ℚ) :
    (∀ data : List Card3, List.Forall₂ (fun cd cd2 =>
        (cd.freePosition = none → cd2 = cd) ∧
        (∀ x y, cd.freePosition = some (x, y) →
          cd2 = { cd with freePosition := some (min x (winW - 300), min y (winH - 200)) } ∧
          min x (winW - 300) ≤ winW - 300 ∧ min y (winH - 200) ≤ winH - 200))
      data (handleWindowResize3 winW winH data)) ∧
    (∀ w : World1, (handleWindowResize1 winW winH w).saves = w.saves + 1 ∧
      ∀ c2 ∈ (handleWindowResize1 winW winH w).cfg.cards,
        c2.posX ≤ winW - 300 ∧ c2.posY ≤ winH - 400) := by
  constructor
  · intro data
    rw [handleWindowResize3, List.forall₂_map_right_iff, List.forall₂_same]
    intro cd _
    exact clampResize3_spec winW winH cd
  · intro w
    refine ⟨rfl, ?_⟩
    intro c2 hc2
    simp only [handleWindowResize1, List.mem_map] at hc2
    obtain ⟨c0, hc0, rfl⟩ := hc2
    refine ⟨?_, ?_⟩ <;> dsimp only <;> split_ifs with h
    · exact le_refl _
    · exact le_of_not_lt h
    · exact le_refl _
    · exact le_of_not_lt h

end Sticky
